import Mathlib

/-!
# cert-backup: the certificate controller

A shallow embedding of `controllers/certificate_controller.go` (`Reconcile`,
`verifySecret`, `readKey`) and of `storage/s3.go` (`S3Manager.Download`).

* Go `error` values are `Option Err`, `none` being `nil`.
* Instants (`time.Time`) are integers; `Before` is `<` and `After` is `>`.
* Library code the controller calls (PEM parsing, x509 hostname verification,
  JSON coding, the Kubernetes client, the storage backend) is not part of the
  repository: it enters every definition as a field of `Lib` or `Env`.
* Every call `Reconcile` makes on a collaborator is recorded, in order, in the
  `calls` field of its outcome.
-/

namespace CertBackup

/-! ## Data model -/

/-- Byte slices. -/
abbrev Bytes := List Nat

/-- An instant of `time.Time`. -/
abbrev Time := Int

/-- The `metav1.StatusReason` of an API error. -/
inductive StatusReason where
  | NotFound
  | AlreadyExists
  | Conflict
  | Forbidden
  | Unknown
  deriving DecidableEq, Repr

/-- Go error values. `ErrNotFound` is the sentinel of the repository's `errors`
package, `ErrPrivateKeyNotRSA` the sentinel of the controller, `withMessage` what
`errors.Wrap` builds, `StorageError` the struct of `storage/s3.go`. -/
inductive Err where
  | ErrNotFound
  | ErrPrivateKeyNotRSA
  | status (reason : StatusReason) (msg : String)
  | aws (code : String) (msg : String)
  | other (msg : String)
  | withMessage (cause : Err) (msg : String)
  | StorageError (InnerError : Err) (Err : Err)
  deriving DecidableEq, Repr

/-- The function `errors.Wrap`: a nil error stays nil. -/
def Wrap (err : Option Err) (message : String) : Option Err :=
  match err with
  | none => none
  | some e => some (Err.withMessage e message)

/-- The function `errors.Is`: compare, then follow `Unwrap`. A wrapped error unwraps to
its cause, a `StorageError` to its `Err` field (`func (e *StorageError) Unwrap`). -/
def errorsIs : Err → Err → Bool
  | Err.withMessage c m, target => decide (Err.withMessage c m = target) || errorsIs c target
  | Err.StorageError i e, target => decide (Err.StorageError i e = target) || errorsIs e target
  | e, target => decide (e = target)

/-- The pair `types.NamespacedName`. -/
structure NamespacedName where
  Namespace : String
  Name : String
  deriving DecidableEq, Repr

/-- The `String()` method of `types.NamespacedName`, used by `%s`. -/
def NamespacedName.toString (n : NamespacedName) : String :=
  n.Namespace ++ "/" ++ n.Name

/-- The value `ctrl.Request`. -/
structure Request where
  NamespacedName : NamespacedName
  deriving DecidableEq, Repr

/-- The value `ctrl.Result`; `ctrl.Result{}` is the default. -/
structure Result where
  Requeue : Bool := false
  RequeueAfter : Nat := 0
  deriving DecidableEq, Repr

/-- The part of a cert-manager `Certificate` the controller reads. -/
structure Certificate where
  SecretName : String
  deriving DecidableEq, Repr

/-- A `v1.Secret`: type and object metadata, and the data map. -/
structure Secret where
  Kind : String := ""
  APIVersion : String := ""
  Namespace : String := ""
  Name : String := ""
  UID : String := ""
  ResourceVersion : String := ""
  Labels : List (String × String) := []
  Annotations : List (String × String) := []
  Data : List (String × Bytes) := []
  SecretType : String := ""
  deriving DecidableEq, Repr

/-- The constant `v1.TLSPrivateKeyKey`. -/
def TLSPrivateKeyKey : String := "tls.key"

/-- The constant `v1.TLSCertKey`. -/
def TLSCertKey : String := "tls.crt"

/-- Indexing of the map `secret.Data`: an absent key gives the nil slice. -/
def Secret.dataAt (s : Secret) (key : String) : Bytes :=
  match s.Data.lookup key with
  | some b => b
  | none => []

/-- What `keyutil.ParsePrivateKeyPEM` can return on success. -/
inductive PrivateKey where
  | rsa (id : Nat)
  | ecdsa (id : Nat)
  deriving DecidableEq, Repr

/-- The fields of an `x509.Certificate` the controller reads. -/
structure X509Certificate where
  Subject : String
  DNSNames : List String
  NotBefore : Time
  NotAfter : Time
  deriving DecidableEq, Repr

/-- Library functions used by `verifySecret` and `readKey`. -/
structure Lib where
  /-- The function `keyutil.ParsePrivateKeyPEM`. -/
  ParsePrivateKeyPEM : Bytes → Except Err PrivateKey
  /-- The function `certUtil.ParseCertsPEM`: both values of the returned pair. -/
  ParseCertsPEM : Bytes → List X509Certificate × Option Err
  /-- The method `(*x509.Certificate).VerifyHostname`. -/
  VerifyHostname : X509Certificate → String → Option Err

/-! ## `readKey` and `verifySecret` -/

/-- The function `readKey`: the RSA key and the chain, or the first error. -/
def readKey (lib : Lib) (secret : Secret) : Except Err (Nat × List X509Certificate) :=
  match lib.ParsePrivateKeyPEM (secret.dataAt TLSPrivateKeyKey) with
  | .error err => .error err
  | .ok key =>
    match key with
    | PrivateKey.rsa rsaKey =>
      match lib.ParseCertsPEM (secret.dataAt TLSCertKey) with
      | (_, some err) => .error err
      | (certs, none) => .ok (rsaKey, certs)
    | _ => .error Err.ErrPrivateKeyNotRSA

/-- The inner loop of `verifySecret`: `false` as soon as one of the names fails
`cert.VerifyHostname`. -/
def verifyNames (lib : Lib) (cert : X509Certificate) : List String → Bool
  | [] => true
  | name :: rest =>
    match lib.VerifyHostname cert name with
    | some _ => false
    | none => verifyNames lib cert rest

/-- The outer loop of `verifySecret`, at the clock reading `n`. -/
def verifyCerts (lib : Lib) (n : Time) : List X509Certificate → Bool × Option Err
  | [] => (true, none)
  | cert :: rest =>
    if verifyNames lib cert cert.DNSNames = false then (false, none)
    else if n < cert.NotBefore || n > cert.NotAfter then (false, none)
    else verifyCerts lib n rest

/-- The function `verifySecret`; `n` is what `now()` returns when it is reached. -/
def verifySecret (lib : Lib) (n : Time) (secret : Secret) : Bool × Option Err :=
  match readKey lib secret with
  | .error err => (false, some err)
  | .ok (_, certs) => verifyCerts lib n certs

/-! ## `storage/s3.go` -/

/-- The constant `s3.ErrCodeNoSuchKey`. -/
def ErrCodeNoSuchKey : String := "NoSuchKey"

/-- The method `S3Manager.Download`. `sdk bucket key` stands for the downloader of the
AWS SDK: the bytes it wrote to `w` and its error. An AWS error whose code is
`NoSuchKey` is replaced by a `StorageError` that unwraps to `ErrNotFound`. -/
def S3Manager.Download (sdk : String → String → Bytes × Option Err) (bucket : String)
    (name : String) : Bytes × Option Err :=
  match sdk bucket name with
  | (w, some (Err.aws code msg)) =>
    if code = ErrCodeNoSuchKey then
      (w, some (Err.StorageError (Err.aws code msg) Err.ErrNotFound))
    else (w, some (Err.aws code msg))
  | (w, err) => (w, err)

/-! ## `Reconcile` -/

/-- The collaborators of one `Reconcile` invocation. -/
structure Env where
  /-- The parsing and x509 functions. -/
  lib : Lib
  /-- The reading `now()` gives inside the `k`-th call of `verifySecret`
  (`0` for the live secret, `1` for the backup). -/
  now : Nat → Time
  /-- The call `r.Get` on a `Certificate`. -/
  GetCertificate : NamespacedName → Except Err Certificate
  /-- The call `r.Get` on a `Secret`: the object after the call, and the error. -/
  GetSecret : NamespacedName → Secret × Option Err
  /-- The function `k8serrors.IsNotFound`. -/
  IsNotFound : Err → Bool
  /-- The function `json.Marshal` on a secret. -/
  Marshal : Secret → Except Err Bytes
  /-- The function `json.Unmarshal` into a fresh secret. -/
  Unmarshal : Bytes → Except Err Secret
  /-- The method `Storage.Upload`. -/
  Upload : String → Bytes → Option Err
  /-- The method `Storage.Download`: the buffer after the call, and the error. -/
  Download : String → Bytes × Option Err
  /-- The call `r.Create` on a secret. -/
  Create : Secret → Option Err

/-- A call made on a collaborator. -/
inductive Call where
  | GetCertificate (key : NamespacedName)
  | GetSecret (key : NamespacedName)
  | Upload (name : String) (body : Bytes)
  | Download (name : String)
  | Create (obj : Secret)
  deriving DecidableEq, Repr

/-- Whether a call is a `Storage.Upload`. -/
def Call.isUpload : Call → Bool
  | Call.Upload _ _ => true
  | _ => false

/-- Whether a call is a `Storage.Download`. -/
def Call.isDownload : Call → Bool
  | Call.Download _ => true
  | _ => false

/-- Whether a call is a `Create`. -/
def Call.isCreate : Call → Bool
  | Call.Create _ => true
  | _ => false

/-- What one invocation of `Reconcile` returns and does: the returned pair, the calls
made in order, and the errors handed to `logger.Error`. -/
structure Outcome where
  result : Result
  err : Option Err
  calls : List Call
  logged : List Err
  deriving DecidableEq, Repr

/-- The object name `fmt.Sprintf("%s:%s.json", namespace, name)`. -/
def fileNameOf (secretFullName : NamespacedName) : String :=
  secretFullName.Namespace ++ ":" ++ secretFullName.Name ++ ".json"

/-- The test `err != nil && !k8serrors.IsNotFound(err)` on the error of the secret's
`Get`. -/
def getFailed (env : Env) (err : Option Err) : Bool :=
  match err with
  | some e => !env.IsNotFound e
  | none => false

/-- The name `secretFullName`: the request's namespace and `cert.Spec.SecretName`. -/
def secretFullNameOf (req : Request) (cert : Certificate) : NamespacedName :=
  { Namespace := req.NamespacedName.Namespace, Name := cert.SecretName }

/-- The body of `Reconcile` from the return of `verifySecret(secret)` on: `verdict` is
the pair `secretValid, err` that call returned, `calls` the calls made so far. -/
def reconcileFrom (env : Env) (secretFullName : NamespacedName) (fileName : String)
    (secret : Secret) (calls : List Call) (verdict : Bool × Option Err) : Outcome :=
  let secretValid := verdict.1
  -- some unknown error verifying the secret continue
  let logged : List Err :=
    match verdict.2 with
    | some err => [err]
    | none => []
  if secretValid then
    -- update the Storage one
    match env.Marshal secret with
    | .error err =>
      ⟨{ Requeue := true },
        Wrap (some err) ("unable to marshal secret " ++ secretFullName.toString ++ " to json"),
        calls, logged⟩
    | .ok b =>
      let calls := calls ++ [Call.Upload fileName b]
      match env.Upload fileName b with
      | some err =>
        ⟨{ Requeue := true }, Wrap (some err) "error uploading secret to storage", calls, logged⟩
      | none => ⟨{}, none, calls, logged⟩
  else
    -- download the Storage secret
    let calls := calls ++ [Call.Download fileName]
    match env.Download fileName with
    | (_, some err) =>
      -- if it doesnt exist do nothing
      if errorsIs err Err.ErrNotFound then ⟨{}, none, calls, logged⟩
      else
        ⟨{ Requeue := true }, Wrap (some err) "error downloading secret from storage",
          calls, logged⟩
    | (buff, none) =>
      -- unmarshal the download as a secret
      match env.Unmarshal buff with
      | .error err =>
        ⟨{}, Wrap (some err)
          ("unable to unmarshal secret " ++ secretFullName.toString ++ " from json"),
          calls, logged⟩
      | .ok storageSecret =>
        let (storageSecretValid, err) := verifySecret env.lib (env.now 1) storageSecret
        match err with
        | some e =>
          ⟨{}, Wrap (some e)
            ("backed up secret " ++ secretFullName.toString ++ " is not valid"),
            calls, logged⟩
        | none =>
          if storageSecretValid then
            -- clear out the resource version
            let storageSecret := { storageSecret with ResourceVersion := "" }
            -- restore the secret
            let calls := calls ++ [Call.Create storageSecret]
            match env.Create storageSecret with
            | some err =>
              ⟨{ Requeue := true },
                Wrap (some err) ("error restoring secret " ++ secretFullName.toString),
                calls, logged⟩
            | none => ⟨{}, none, calls, logged⟩
          else
            -- the variable wrapped here is the `err` of the `verifySecret` call above
            ⟨{}, Wrap err ("backed up secret " ++ secretFullName.toString ++ " is not valid"),
              calls, logged⟩

/-- The method `CertificateReconciler.Reconcile`. -/
def Reconcile (env : Env) (req : Request) : Outcome :=
  let calls := [Call.GetCertificate req.NamespacedName]
  match env.GetCertificate req.NamespacedName with
  | .error err =>
    -- if we can't load the cert then we need to stop processing it
    ⟨{}, some err, calls, []⟩
  | .ok cert =>
    let secretFullName := secretFullNameOf req cert
    let calls := calls ++ [Call.GetSecret secretFullName]
    let (secret, err) := env.GetSecret secretFullName
    if getFailed env err then
      ⟨{ Requeue := true },
        Wrap err ("error getting secret " ++ secretFullName.toString), calls, []⟩
    else
      let fileName := fileNameOf secretFullName
      reconcileFrom env secretFullName fileName secret calls
        (verifySecret env.lib (env.now 0) secret)

/-! ## Concrete collaborators -/

/-- A leaf certificate valid from 2021-06-29 to 2021-09-28 (Unix seconds). -/
def leafCert : X509Certificate :=
  { Subject := "CN=a.example.com", DNSNames := ["a.example.com"],
    NotBefore := 1625000000, NotAfter := 1632800000 }

/-- An issuer certificate without DNS names, valid over the same period. -/
def issuerCert : X509Certificate :=
  { Subject := "CN=Example CA", DNSNames := [],
    NotBefore := 1600000000, NotAfter := 1700000000 }

/-- A leaf certificate that expired on 2021-05-03. -/
def expiredCert : X509Certificate :=
  { Subject := "CN=a.example.com", DNSNames := ["a.example.com"],
    NotBefore := 1610000000, NotAfter := 1620000000 }

/-- The instant 2021-08-01T00:00:00Z. -/
def august2021 : Time := 1627776000

/-- A library instance: key bytes `[1]` are an RSA key and `[2]` an ECDSA key;
certificate bytes `[10]`, `[11]`, `[12]` are the chains `[leafCert]`, `[expiredCert]`
and `[leafCert, issuerCert]`, any other bytes hold no certificate and are an error; a
host name verifies against a certificate when it is one of its DNS names. -/
def demoLib : Lib where
  ParsePrivateKeyPEM := fun b =>
    if b = [1] then .ok (PrivateKey.rsa 1)
    else if b = [2] then .ok (PrivateKey.ecdsa 2)
    else .error (Err.other "data does not contain a valid RSA or ECDSA private key")
  ParseCertsPEM := fun b =>
    if b = [10] then ([leafCert], none)
    else if b = [11] then ([expiredCert], none)
    else if b = [12] then ([leafCert, issuerCert], none)
    else ([], some (Err.other "data does not contain any valid RSA or ECDSA certificates"))
  VerifyHostname := fun c h =>
    if h ∈ c.DNSNames then none else some (Err.other ("certificate is not valid for " ++ h))

/-- A secret `default/tls` holding key bytes `key` and certificate bytes `crt`. -/
def tlsSecret (key crt : Bytes) (resourceVersion : String) : Secret :=
  { Kind := "Secret", APIVersion := "v1", Namespace := "default", Name := "tls",
    UID := "7f1c", ResourceVersion := resourceVersion,
    Data := [(TLSCertKey, crt), (TLSPrivateKeyKey, key)],
    SecretType := "kubernetes.io/tls" }

/-- The API error of a `Get` that finds no object. -/
def secretNotFound : Err := Err.status StatusReason.NotFound "secrets \"tls\" not found"

/-- The API error of a `Create` on a name that is taken. -/
def secretAlreadyExists : Err :=
  Err.status StatusReason.AlreadyExists "secrets \"tls\" already exists"

/-- An environment over `demoLib` with the clock at `august2021`. The certificate
`default/site` names the secret `tls`; `live` is what the secret's `Get` gives,
`download` what `Storage.Download` gives, `create` what `Create` returns. Uploads
succeed. The stored form of a secret is its key bytes followed by its certificate
bytes. -/
def demoEnv (live : Secret × Option Err) (download : Bytes × Option Err)
    (create : Option Err) : Env where
  lib := demoLib
  now := fun _ => august2021
  GetCertificate := fun key =>
    if key = { Namespace := "default", Name := "site" } then .ok { SecretName := "tls" }
    else .error (Err.status StatusReason.NotFound "certificate not found")
  GetSecret := fun _ => live
  IsNotFound := fun e =>
    match e with
    | Err.status StatusReason.NotFound _ => true
    | _ => false
  Marshal := fun s => .ok (s.dataAt TLSPrivateKeyKey ++ s.dataAt TLSCertKey)
  Unmarshal := fun b =>
    match b with
    | [k, c] => .ok (tlsSecret [k] [c] "40")
    | _ => .error (Err.other "unexpected end of JSON input")
  Upload := fun _ _ => none
  Download := fun _ => download
  Create := fun _ => create

/-- The request for the certificate `default/site`. -/
def siteRequest : Request := { NamespacedName := { Namespace := "default", Name := "site" } }

/-- An SDK downloader that finds no object under any key. -/
def emptyBucket : String → String → Bytes × Option Err :=
  fun _ _ => ([], some (Err.aws ErrCodeNoSuchKey "The specified key does not exist."))

/-- Scenario A: the live secret holds `[leafCert]`. -/
def liveValidEnv : Env := demoEnv (tlsSecret [1] [10] "41", none) ([], none) none

/-- Scenario C: the live secret holds `[expiredCert]`, the backup `[leafCert]`. -/
def restoreEnv : Env := demoEnv (tlsSecret [1] [11] "41", none) ([1, 10], none) none

/-- Scenario C with a `Create` that answers already-exists. -/
def conflictEnv : Env :=
  demoEnv (tlsSecret [1] [11] "41", none) ([1, 10], none) (some secretAlreadyExists)

/-- Scenario D: the live secret and the backup both hold `[expiredCert]`. -/
def bothExpiredEnv : Env := demoEnv (tlsSecret [1] [11] "41", none) ([1, 11], none) none

/-- Scenario B over `S3Manager.Download`: no live secret and an empty bucket. -/
def noBackupEnv : Env :=
  demoEnv ({}, some secretNotFound) (S3Manager.Download emptyBucket "backups" "default:tls.json")
    none

/-- The live secret holds an ECDSA key, the backup `[leafCert]`. -/
def ecdsaLiveEnv : Env := demoEnv (tlsSecret [2] [10] "41", none) ([1, 10], none) none

/-! ## The validity condition -/

/-- Whether `n` lies in the window of `c`: `NotBefore <= n <= NotAfter`. -/
def inWindow (n : Time) (c : X509Certificate) : Prop :=
  c.NotBefore ≤ n ∧ n ≤ c.NotAfter

/-- The validity condition as the specification words it: every certificate of the chain
is in its window, and every DNS name of the leaf (the first certificate) verifies against
every certificate of the chain. -/
def statedValid (lib : Lib) (n : Time) (certs : List X509Certificate) : Prop :=
  (∀ c ∈ certs, inWindow n c) ∧
    ∀ name ∈ (certs.head?.map X509Certificate.DNSNames).getD [],
      ∀ c ∈ certs, lib.VerifyHostname c name = none

/-- The validity condition the loops of `verifySecret` compute: every certificate of the
chain is in its window, and every DNS name of a certificate verifies against that same
certificate. -/
def chainValid (lib : Lib) (n : Time) (certs : List X509Certificate) : Prop :=
  ∀ c ∈ certs, inWindow n c ∧ ∀ name ∈ c.DNSNames, lib.VerifyHostname c name = none

/-! ## Lemmas on `verifySecret` -/

theorem verifyNames_eq_true_iff (lib : Lib) (cert : X509Certificate) (names : List String) :
    verifyNames lib cert names = true ↔ ∀ name ∈ names, lib.VerifyHostname cert name = none := by
  induction names with
  | nil => simp [verifyNames]
  | cons name rest ih =>
    cases h : lib.VerifyHostname cert name with
    | none => simp [verifyNames, h, ih]
    | some e => simp [verifyNames, h]

theorem verifyCerts_snd (lib : Lib) (n : Time) (certs : List X509Certificate) :
    (verifyCerts lib n certs).2 = none := by
  induction certs with
  | nil => rfl
  | cons c rest ih =>
    unfold verifyCerts
    split
    · rfl
    · split
      · rfl
      · exact ih

theorem verifyCerts_fst_iff (lib : Lib) (n : Time) (certs : List X509Certificate) :
    (verifyCerts lib n certs).1 = true ↔ chainValid lib n certs := by
  induction certs with
  | nil => simp [verifyCerts, chainValid]
  | cons c rest ih =>
    have hnames := verifyNames_eq_true_iff lib c c.DNSNames
    have hcons : chainValid lib n (c :: rest) ↔
        (inWindow n c ∧ ∀ name ∈ c.DNSNames, lib.VerifyHostname c name = none) ∧
          chainValid lib n rest := by
      unfold chainValid
      constructor
      · intro h
        exact ⟨h c (List.mem_cons_self _ _), fun x hx => h x (List.mem_cons_of_mem _ hx)⟩
      · intro h x hx
        rcases List.mem_cons.mp hx with rfl | hx
        · exact h.1
        · exact h.2 x hx
    rw [hcons]
    unfold verifyCerts
    split
    · rename_i h1
      constructor
      · intro h; cases h
      · intro h
        have := hnames.mpr h.1.2
        rw [h1] at this; cases this
    · rename_i h1
      have hyes : ∀ name ∈ c.DNSNames, lib.VerifyHostname c name = none := by
        rw [← hnames]; simpa using h1
      split
      · rename_i h2
        simp only [Bool.or_eq_true, decide_eq_true_eq] at h2
        constructor
        · intro h; cases h
        · intro h
          have hw := h.1.1
          unfold inWindow at hw
          rcases h2 with h2 | h2
          · exact absurd h2 (not_lt.mpr hw.1)
          · exact absurd h2 (not_lt.mpr hw.2)
      · rename_i h2
        simp only [Bool.or_eq_true, decide_eq_true_eq, not_or, not_lt] at h2
        rw [ih]
        constructor
        · intro h
          exact ⟨⟨⟨h2.1, h2.2⟩, hyes⟩, h⟩
        · intro h
          exact h.2

theorem verifyCerts_eq (lib : Lib) (n : Time) (certs : List X509Certificate) :
    verifyCerts lib n certs = ((verifyCerts lib n certs).1, none) := by
  have h := verifyCerts_snd lib n certs
  rw [← h]

theorem readKey_of_parsed (lib : Lib) (secret : Secret) (k : Nat)
    (certs : List X509Certificate)
    (hk : lib.ParsePrivateKeyPEM (secret.dataAt TLSPrivateKeyKey) = .ok (PrivateKey.rsa k))
    (hc : lib.ParseCertsPEM (secret.dataAt TLSCertKey) = (certs, none)) :
    readKey lib secret = .ok (k, certs) := by
  simp [readKey, hk, hc]

theorem verifySecret_of_parsed (lib : Lib) (n : Time) (secret : Secret) (k : Nat)
    (certs : List X509Certificate)
    (hk : lib.ParsePrivateKeyPEM (secret.dataAt TLSPrivateKeyKey) = .ok (PrivateKey.rsa k))
    (hc : lib.ParseCertsPEM (secret.dataAt TLSCertKey) = (certs, none)) :
    verifySecret lib n secret = verifyCerts lib n certs := by
  simp [verifySecret, readKey_of_parsed lib secret k certs hk hc]

/-- The loops of `verifySecret` on a chain without certificates: nothing is checked and
the verdict is `(true, nil)`. -/
theorem verifyCerts_nil (lib : Lib) (n : Time) : verifyCerts lib n [] = (true, none) := rfl

/-- The parser of `demoLib` reports an error whenever it returns the empty chain. -/
theorem demoLib_no_empty_chain (b : Bytes) :
    (demoLib.ParseCertsPEM b).1 = [] → (demoLib.ParseCertsPEM b).2 ≠ none := by
  intro h
  simp only [demoLib] at h ⊢
  split_ifs at h ⊢
  simp_all

/-- When `verifySecret` returns an error, it returns `false` with it. -/
theorem verifySecret_fst_of_err (lib : Lib) (n : Time) (secret : Secret) (e : Err)
    (h : (verifySecret lib n secret).2 = some e) : (verifySecret lib n secret).1 = false := by
  unfold verifySecret at h ⊢
  split at h
  · rfl
  · rw [verifyCerts_snd] at h; cases h

/-- When `verifySecret` returns `true`, the error is nil. -/
theorem verifySecret_snd_of_valid (lib : Lib) (n : Time) (secret : Secret)
    (h : (verifySecret lib n secret).1 = true) : (verifySecret lib n secret).2 = none := by
  cases h2 : (verifySecret lib n secret).2 with
  | none => rfl
  | some e => rw [verifySecret_fst_of_err lib n secret e h2] at h; cases h

/-! ## `verifySecret`: the claims -/

/-- C7, as stated, fails: the chain `[leafCert, issuerCert]` is parsed from the secret,
`verifySecret` returns `(true, nil)` on it, and yet the leaf's DNS name does not verify
against the issuer certificate, so the stated condition is false. -/
theorem verifySecret_stated_condition_fails :
    readKey demoLib (tlsSecret [1] [12] "1") = .ok (1, [leafCert, issuerCert]) ∧
      verifySecret demoLib august2021 (tlsSecret [1] [12] "1") = (true, none) ∧
      ¬ statedValid demoLib august2021 [leafCert, issuerCert] := by
  refine ⟨rfl, by decide, ?_⟩
  intro h
  have h2 := h.2 "a.example.com" (by decide) issuerCert (by decide)
  revert h2
  decide

/-- C7, amended: for a secret whose key parses as an RSA key and whose certificate field
parses into a non-empty chain, `verifySecret` returns `(true, nil)` exactly when every
certificate of the chain is in its window and every DNS name of each certificate verifies
against that same certificate; otherwise it returns `(false, nil)`. -/
theorem verifySecret_valid_iff (lib : Lib) (n : Time) (secret : Secret) (k : Nat)
    (certs : List X509Certificate)
    (hk : lib.ParsePrivateKeyPEM (secret.dataAt TLSPrivateKeyKey) = .ok (PrivateKey.rsa k))
    (hc : lib.ParseCertsPEM (secret.dataAt TLSCertKey) = (certs, none))
    (_hne : certs ≠ []) :
    (verifySecret lib n secret = (true, none) ↔ chainValid lib n certs) ∧
      (¬ chainValid lib n certs → verifySecret lib n secret = (false, none)) := by
  rw [verifySecret_of_parsed lib n secret k certs hk hc, verifyCerts_eq lib n certs,
    ← verifyCerts_fst_iff lib n certs]
  constructor
  · constructor
    · intro h
      exact congrArg Prod.fst h
    · intro h
      rw [h]
  · intro h
    simp only [Bool.not_eq_true] at h
    rw [h]

theorem verifySecret_valid_iff_witness :
    demoLib.ParsePrivateKeyPEM ((tlsSecret [1] [12] "1").dataAt TLSPrivateKeyKey)
        = .ok (PrivateKey.rsa 1) ∧
      demoLib.ParseCertsPEM ((tlsSecret [1] [12] "1").dataAt TLSCertKey)
        = ([leafCert, issuerCert], none) ∧
      ((verifySecret demoLib august2021 (tlsSecret [1] [12] "1") = (true, none) ↔
          chainValid demoLib august2021 [leafCert, issuerCert]) ∧
        (¬ chainValid demoLib august2021 [leafCert, issuerCert] →
          verifySecret demoLib august2021 (tlsSecret [1] [12] "1") = (false, none))) :=
  ⟨rfl, rfl,
    verifySecret_valid_iff demoLib august2021 (tlsSecret [1] [12] "1") 1
      [leafCert, issuerCert] rfl rfl (by decide)⟩

/-- C8: for a secret whose key parses as an RSA key and whose chain parses, at every clock
reading `n`, if some certificate of the chain, at whatever position, has `n` strictly
before its `NotBefore` or strictly after its `NotAfter`, `verifySecret` returns `false`
with a nil error. -/
theorem verifySecret_outside_window (lib : Lib) (n : Time) (secret : Secret) (k : Nat)
    (certs : List X509Certificate) (c : X509Certificate)
    (hk : lib.ParsePrivateKeyPEM (secret.dataAt TLSPrivateKeyKey) = .ok (PrivateKey.rsa k))
    (hc : lib.ParseCertsPEM (secret.dataAt TLSCertKey) = (certs, none))
    (hmem : c ∈ certs) (hout : n < c.NotBefore ∨ c.NotAfter < n) :
    verifySecret lib n secret = (false, none) := by
  rw [verifySecret_of_parsed lib n secret k certs hk hc, verifyCerts_eq lib n certs]
  have hnot : ¬ (verifyCerts lib n certs).1 = true := by
    rw [verifyCerts_fst_iff]
    intro h
    have hw := (h c hmem).1
    unfold inWindow at hw
    rcases hout with h1 | h1
    · exact absurd h1 (not_lt.mpr hw.1)
    · exact absurd h1 (not_lt.mpr hw.2)
  simp only [Bool.not_eq_true] at hnot
  rw [hnot]

theorem verifySecret_outside_window_witness :
    expiredCert ∈ [expiredCert] ∧
      (august2021 < expiredCert.NotBefore ∨ expiredCert.NotAfter < august2021) ∧
      verifySecret demoLib august2021 (tlsSecret [1] [11] "1") = (false, none) :=
  ⟨by decide, by decide,
    verifySecret_outside_window demoLib august2021 (tlsSecret [1] [11] "1") 1 [expiredCert]
      expiredCert rfl rfl (by decide) (by decide)⟩

/-- C9: for a secret whose key parses as an RSA key and whose certificate field holds no
certificate (the parser returns the empty chain), `verifySecret` reports `valid=false`,
provided the parser reports an error whenever it returns the empty chain, as
`certUtil.ParseCertsPEM` does: `readKey` then fails and `verifySecret` returns `false`
with that error. -/
theorem verifySecret_no_certificate (lib : Lib) (n : Time) (secret : Secret) (k : Nat)
    (hlib : ∀ b, (lib.ParseCertsPEM b).1 = [] → (lib.ParseCertsPEM b).2 ≠ none)
    (hk : lib.ParsePrivateKeyPEM (secret.dataAt TLSPrivateKeyKey) = .ok (PrivateKey.rsa k))
    (hempty : (lib.ParseCertsPEM (secret.dataAt TLSCertKey)).1 = []) :
    (verifySecret lib n secret).1 = false := by
  have herr := hlib (secret.dataAt TLSCertKey) hempty
  cases hp : lib.ParseCertsPEM (secret.dataAt TLSCertKey) with
  | mk certs err =>
    cases err with
    | none => rw [hp] at herr; exact absurd rfl herr
    | some e => simp [verifySecret, readKey, hk, hp]

theorem verifySecret_no_certificate_witness :
    (∀ b, (demoLib.ParseCertsPEM b).1 = [] → (demoLib.ParseCertsPEM b).2 ≠ none) ∧
      demoLib.ParsePrivateKeyPEM ((tlsSecret [1] [] "1").dataAt TLSPrivateKeyKey)
        = .ok (PrivateKey.rsa 1) ∧
      (demoLib.ParseCertsPEM ((tlsSecret [1] [] "1").dataAt TLSCertKey)).1 = [] ∧
      (verifySecret demoLib august2021 (tlsSecret [1] [] "1")).1 = false :=
  ⟨demoLib_no_empty_chain, rfl, rfl,
    verifySecret_no_certificate demoLib august2021 (tlsSecret [1] [] "1") 1
      demoLib_no_empty_chain rfl rfl⟩

/-! ## Lemmas on `Reconcile` -/

/-- Once the certificate is fetched and the secret's `Get` has not failed, `Reconcile` is
`reconcileFrom` on the verdict of `verifySecret`. -/
theorem Reconcile_eq_reconcileFrom (env : Env) (req : Request) (cert : Certificate)
    (secret : Secret) (gerr : Option Err)
    (hcert : env.GetCertificate req.NamespacedName = .ok cert)
    (hget : env.GetSecret (secretFullNameOf req cert) = (secret, gerr))
    (hpass : getFailed env gerr = false) :
    Reconcile env req =
      reconcileFrom env (secretFullNameOf req cert) (fileNameOf (secretFullNameOf req cert))
        secret [Call.GetCertificate req.NamespacedName, Call.GetSecret (secretFullNameOf req cert)]
        (verifySecret env.lib (env.now 0) secret) := by
  simp [Reconcile, hcert, hget, hpass]

/-- The outcome of `reconcileFrom` on a verdict that is not valid does not depend on the
verdict's error, the logged errors apart. -/
theorem reconcileFrom_invalid (env : Env) (sfn : NamespacedName) (fileName : String)
    (secret : Secret) (calls : List Call) (err : Option Err) :
    (reconcileFrom env sfn fileName secret calls (false, err)).result
        = (reconcileFrom env sfn fileName secret calls (false, none)).result ∧
      (reconcileFrom env sfn fileName secret calls (false, err)).err
        = (reconcileFrom env sfn fileName secret calls (false, none)).err ∧
      (reconcileFrom env sfn fileName secret calls (false, err)).calls
        = (reconcileFrom env sfn fileName secret calls (false, none)).calls := by
  unfold reconcileFrom
  simp only [Bool.false_eq_true, if_false]
  refine ⟨?_, ?_, ?_⟩ <;> (repeat' split) <;> simp_all

/-- What `reconcileFrom` does on a verdict that is not valid and a download that gives
`buff` without error. -/
theorem reconcileFrom_download_ok (env : Env) (sfn : NamespacedName) (fileName : String)
    (secret : Secret) (calls : List Call) (verdict : Bool × Option Err) (buff : Bytes)
    (backup : Secret)
    (hlive : verdict.1 = false) (hdl : env.Download fileName = (buff, none))
    (hun : env.Unmarshal buff = .ok backup) :
    ((verifySecret env.lib (env.now 1) backup).1 = true →
        (reconcileFrom env sfn fileName secret calls verdict).calls
            = calls ++ [Call.Download fileName,
                Call.Create { backup with ResourceVersion := "" }] ∧
          (reconcileFrom env sfn fileName secret calls verdict).result.Requeue
            = (env.Create { backup with ResourceVersion := "" }).isSome ∧
          (reconcileFrom env sfn fileName secret calls verdict).err
            = Wrap (env.Create { backup with ResourceVersion := "" })
                ("error restoring secret " ++ sfn.toString)) ∧
      (verifySecret env.lib (env.now 1) backup = (false, none) →
        (reconcileFrom env sfn fileName secret calls verdict).calls
            = calls ++ [Call.Download fileName] ∧
          (reconcileFrom env sfn fileName secret calls verdict).result = {} ∧
          (reconcileFrom env sfn fileName secret calls verdict).err = none) := by
  constructor
  · intro hb
    have hb2 := verifySecret_snd_of_valid env.lib (env.now 1) backup hb
    have hv : verifySecret env.lib (env.now 1) backup = (true, none) := by
      rw [← hb, ← hb2]
    unfold reconcileFrom
    simp only [hlive, Bool.false_eq_true, if_false, hdl, hun, hv, if_true]
    cases hc : env.Create { backup with ResourceVersion := "" } <;> simp [Wrap]
  · intro hv
    unfold reconcileFrom
    simp [hlive, hdl, hun, hv, Wrap]

/-- The calls of `Reconcile`: an upload is made only on a valid live verdict, and then
nothing is downloaded or created; a download is made only on a verdict that is not
valid, under the name of the backup object. -/
theorem Reconcile_calls (env : Env) (req : Request) :
    (∀ c ∈ (Reconcile env req).calls,
        c.isUpload = false ∧ c.isDownload = false ∧ c.isCreate = false) ∨
      ∃ cert gerr, env.GetCertificate req.NamespacedName = .ok cert ∧
        (env.GetSecret (secretFullNameOf req cert)).2 = gerr ∧ getFailed env gerr = false ∧
        Reconcile env req =
          reconcileFrom env (secretFullNameOf req cert)
            (fileNameOf (secretFullNameOf req cert))
            (env.GetSecret (secretFullNameOf req cert)).1
            [Call.GetCertificate req.NamespacedName,
              Call.GetSecret (secretFullNameOf req cert)]
            (verifySecret env.lib (env.now 0) (env.GetSecret (secretFullNameOf req cert)).1) := by
  cases hcert : env.GetCertificate req.NamespacedName with
  | error e =>
    left
    simp [Reconcile, hcert, Call.isUpload, Call.isDownload, Call.isCreate]
  | ok cert =>
    cases hpass : getFailed env (env.GetSecret (secretFullNameOf req cert)).2 with
    | true =>
      left
      simp [Reconcile, hcert, hpass, Call.isUpload, Call.isDownload, Call.isCreate]
    | false =>
      right
      exact ⟨cert, _, rfl, rfl, hpass,
        Reconcile_eq_reconcileFrom env req cert _ _ hcert rfl hpass⟩

/-- The calls `reconcileFrom` adds: on a valid verdict at most one upload and nothing
else; otherwise one download of `fileName`, possibly followed by one create. -/
theorem reconcileFrom_calls (env : Env) (sfn : NamespacedName) (fileName : String)
    (secret : Secret) (calls : List Call) (verdict : Bool × Option Err) :
    (verdict.1 = true ∧
        ((reconcileFrom env sfn fileName secret calls verdict).calls = calls ∨
          ∃ b, (reconcileFrom env sfn fileName secret calls verdict).calls
            = calls ++ [Call.Upload fileName b])) ∨
      (verdict.1 = false ∧
        ((reconcileFrom env sfn fileName secret calls verdict).calls
            = calls ++ [Call.Download fileName] ∨
          ∃ obj, (env.Download fileName).2 = none ∧
            (reconcileFrom env sfn fileName secret calls verdict).calls
              = calls ++ [Call.Download fileName, Call.Create obj])) := by
  cases hv : verdict.1 with
  | true =>
    left
    refine ⟨rfl, ?_⟩
    unfold reconcileFrom
    simp only [hv, if_true]
    cases hm : env.Marshal secret with
    | error e => left; rfl
    | ok b =>
      right
      refine ⟨b, ?_⟩
      cases hu : env.Upload fileName b <;> simp [hu]
  | false =>
    right
    refine ⟨rfl, ?_⟩
    unfold reconcileFrom
    simp only [hv, Bool.false_eq_true, if_false]
    (repeat' split) <;> simp_all

/-! ## `Reconcile`: the claims -/

/-- C1, evaluated on Scenario D: the live secret is judged not valid, the download
succeeds, the bytes deserialize, the backup is judged `valid=false` with a nil error, no
`Create` is made and `Requeue` is false, but the returned error is nil: the final
`errors.Wrap(err, ...)` wraps the nil error of the backup's `verifySecret`. -/
theorem Reconcile_both_expired_returns_nil :
    verifySecret bothExpiredEnv.lib (bothExpiredEnv.now 0) (tlsSecret [1] [11] "41")
        = (false, none) ∧
      bothExpiredEnv.Download "default:tls.json" = ([1, 11], none) ∧
      bothExpiredEnv.Unmarshal [1, 11] = .ok (tlsSecret [1] [11] "40") ∧
      verifySecret bothExpiredEnv.lib (bothExpiredEnv.now 1) (tlsSecret [1] [11] "40")
        = (false, none) ∧
      Reconcile bothExpiredEnv siteRequest =
        { result := { Requeue := false }, err := none,
          calls := [Call.GetCertificate { Namespace := "default", Name := "site" },
            Call.GetSecret { Namespace := "default", Name := "tls" },
            Call.Download "default:tls.json"],
          logged := [] } := by
  refine ⟨by decide, by decide, rfl, by decide, by decide⟩

/-- C2: in every invocation of `Reconcile` that makes a `Storage.Upload` call,
`verifySecret` judged the live secret valid, and the invocation makes neither a
`Storage.Download` nor a `Create` call. -/
theorem Reconcile_upload_only_when_valid (env : Env) (req : Request) (name : String)
    (body : Bytes) (h : Call.Upload name body ∈ (Reconcile env req).calls) :
    (∃ cert, env.GetCertificate req.NamespacedName = .ok cert ∧
        (verifySecret env.lib (env.now 0)
          (env.GetSecret (secretFullNameOf req cert)).1).1 = true) ∧
      ∀ c ∈ (Reconcile env req).calls, c.isDownload = false ∧ c.isCreate = false := by
  rcases Reconcile_calls env req with hnone | ⟨cert, gerr, hcert, _, _, heq⟩
  · have := (hnone _ h).1
    simp [Call.isUpload] at this
  · rw [heq] at h ⊢
    rcases reconcileFrom_calls env (secretFullNameOf req cert)
        (fileNameOf (secretFullNameOf req cert)) (env.GetSecret (secretFullNameOf req cert)).1
        [Call.GetCertificate req.NamespacedName, Call.GetSecret (secretFullNameOf req cert)]
        (verifySecret env.lib (env.now 0) (env.GetSecret (secretFullNameOf req cert)).1)
      with ⟨hv, hc | ⟨b, hc⟩⟩ | ⟨_, hc | ⟨obj, _, hc⟩⟩
    · refine ⟨⟨cert, hcert, hv⟩, ?_⟩
      rw [hc]
      simp [Call.isDownload, Call.isCreate]
    · refine ⟨⟨cert, hcert, hv⟩, ?_⟩
      rw [hc]
      simp [Call.isDownload, Call.isCreate]
    · rw [hc] at h
      simp at h
    · rw [hc] at h
      simp at h

theorem Reconcile_upload_only_when_valid_witness :
    Call.Upload "default:tls.json" [1, 10] ∈ (Reconcile liveValidEnv siteRequest).calls ∧
      ((∃ cert, liveValidEnv.GetCertificate siteRequest.NamespacedName = .ok cert ∧
          (verifySecret liveValidEnv.lib (liveValidEnv.now 0)
            (liveValidEnv.GetSecret (secretFullNameOf siteRequest cert)).1).1 = true) ∧
        ∀ c ∈ (Reconcile liveValidEnv siteRequest).calls,
          c.isDownload = false ∧ c.isCreate = false) :=
  ⟨by decide,
    Reconcile_upload_only_when_valid liveValidEnv siteRequest "default:tls.json" [1, 10]
      (by decide)⟩

/-- C3: when the certificate and the live secret are fetched, `verifySecret` judges the
live secret valid and the upload succeeds, `Reconcile` makes exactly one `Upload` call,
with the object name `<namespace>:<secret name>.json` and the JSON serialization of the
live secret as content, makes no `Download` and no `Create` call, and returns
`Requeue=false` with a nil error. -/
theorem Reconcile_backs_up_valid_secret (env : Env) (req : Request) (cert : Certificate)
    (secret : Secret) (b : Bytes)
    (hcert : env.GetCertificate req.NamespacedName = .ok cert)
    (hget : env.GetSecret (secretFullNameOf req cert) = (secret, none))
    (hvalid : (verifySecret env.lib (env.now 0) secret).1 = true)
    (hm : env.Marshal secret = .ok b)
    (hup : env.Upload (req.NamespacedName.Namespace ++ ":" ++ cert.SecretName ++ ".json") b
      = none) :
    (Reconcile env req).calls.filter Call.isUpload
        = [Call.Upload (req.NamespacedName.Namespace ++ ":" ++ cert.SecretName ++ ".json") b] ∧
      (∀ c ∈ (Reconcile env req).calls, c.isDownload = false ∧ c.isCreate = false) ∧
      (Reconcile env req).result.Requeue = false ∧
      (Reconcile env req).err = none := by
  have hup2 : env.Upload (fileNameOf (secretFullNameOf req cert)) b = none := hup
  rw [Reconcile_eq_reconcileFrom env req cert secret none hcert hget rfl]
  unfold reconcileFrom
  simp only [hvalid, if_true, hm, hup2]
  simp [Call.isUpload, Call.isDownload, Call.isCreate, fileNameOf, secretFullNameOf]

theorem Reconcile_backs_up_valid_secret_witness :
    (Reconcile liveValidEnv siteRequest).calls.filter Call.isUpload
        = [Call.Upload ("default" ++ ":" ++ "tls" ++ ".json") [1, 10]] ∧
      (∀ c ∈ (Reconcile liveValidEnv siteRequest).calls,
        c.isDownload = false ∧ c.isCreate = false) ∧
      (Reconcile liveValidEnv siteRequest).result.Requeue = false ∧
      (Reconcile liveValidEnv siteRequest).err = none :=
  Reconcile_backs_up_valid_secret liveValidEnv siteRequest { SecretName := "tls" }
    (tlsSecret [1] [10] "41") [1, 10] rfl rfl (by decide) rfl (by decide)

/-- C4: when the live secret is not judged valid, the download succeeds and the bytes
deserialize into a secret that `verifySecret` judges valid, `Reconcile` makes exactly one
`Create` call, on a secret that equals the deserialized backup in every field except that
its `ResourceVersion` is the empty string; and if that `Create` succeeds the result is
`Requeue=false` with a nil error. -/
theorem Reconcile_restores_valid_backup (env : Env) (req : Request) (cert : Certificate)
    (secret : Secret) (gerr : Option Err) (buff : Bytes) (backup : Secret)
    (hcert : env.GetCertificate req.NamespacedName = .ok cert)
    (hget : env.GetSecret (secretFullNameOf req cert) = (secret, gerr))
    (hpass : getFailed env gerr = false)
    (hlive : (verifySecret env.lib (env.now 0) secret).1 = false)
    (hdl : env.Download (fileNameOf (secretFullNameOf req cert)) = (buff, none))
    (hun : env.Unmarshal buff = .ok backup)
    (hbackup : (verifySecret env.lib (env.now 1) backup).1 = true) :
    ∃ obj : Secret,
      (Reconcile env req).calls.filter Call.isCreate = [Call.Create obj] ∧
      obj.ResourceVersion = "" ∧
      obj.Kind = backup.Kind ∧ obj.APIVersion = backup.APIVersion ∧
      obj.Namespace = backup.Namespace ∧ obj.Name = backup.Name ∧ obj.UID = backup.UID ∧
      obj.Labels = backup.Labels ∧ obj.Annotations = backup.Annotations ∧
      obj.Data = backup.Data ∧ obj.SecretType = backup.SecretType ∧
      (env.Create obj = none →
        (Reconcile env req).result.Requeue = false ∧ (Reconcile env req).err = none) := by
  have h := (reconcileFrom_download_ok env (secretFullNameOf req cert)
    (fileNameOf (secretFullNameOf req cert)) secret
    [Call.GetCertificate req.NamespacedName, Call.GetSecret (secretFullNameOf req cert)]
    (verifySecret env.lib (env.now 0) secret) buff backup hlive hdl hun).1 hbackup
  rw [← Reconcile_eq_reconcileFrom env req cert secret gerr hcert hget hpass] at h
  refine ⟨{ backup with ResourceVersion := "" }, ?_, rfl, rfl, rfl, rfl, rfl, rfl, rfl, rfl,
    rfl, rfl, ?_⟩
  · rw [h.1]
    simp [Call.isCreate]
  · intro hc
    rw [h.2.1, h.2.2, hc]
    exact ⟨rfl, rfl⟩

theorem Reconcile_restores_valid_backup_witness :
    ∃ obj : Secret,
      (Reconcile restoreEnv siteRequest).calls.filter Call.isCreate = [Call.Create obj] ∧
      obj.ResourceVersion = "" ∧
      obj.Kind = (tlsSecret [1] [10] "40").Kind ∧
      obj.APIVersion = (tlsSecret [1] [10] "40").APIVersion ∧
      obj.Namespace = (tlsSecret [1] [10] "40").Namespace ∧
      obj.Name = (tlsSecret [1] [10] "40").Name ∧
      obj.UID = (tlsSecret [1] [10] "40").UID ∧
      obj.Labels = (tlsSecret [1] [10] "40").Labels ∧
      obj.Annotations = (tlsSecret [1] [10] "40").Annotations ∧
      obj.Data = (tlsSecret [1] [10] "40").Data ∧
      obj.SecretType = (tlsSecret [1] [10] "40").SecretType ∧
      (restoreEnv.Create obj = none →
        (Reconcile restoreEnv siteRequest).result.Requeue = false ∧
          (Reconcile restoreEnv siteRequest).err = none) :=
  Reconcile_restores_valid_backup restoreEnv siteRequest { SecretName := "tls" }
    (tlsSecret [1] [11] "41") none [1, 10] (tlsSecret [1] [10] "40") rfl rfl rfl
    (by decide) rfl rfl (by decide)

/-- C5, as stated, fails: in Scenario C the backup is judged valid, `Create` answers with
an already-exists conflict, and `Reconcile` returns `Requeue=true` with the wrapped
conflict as a non-nil error. -/
theorem Reconcile_create_conflict_requeues :
    verifySecret conflictEnv.lib (conflictEnv.now 0) (tlsSecret [1] [11] "41")
        = (false, none) ∧
      conflictEnv.Download "default:tls.json" = ([1, 10], none) ∧
      conflictEnv.Unmarshal [1, 10] = .ok (tlsSecret [1] [10] "40") ∧
      verifySecret conflictEnv.lib (conflictEnv.now 1) (tlsSecret [1] [10] "40")
        = (true, none) ∧
      conflictEnv.Create (tlsSecret [1] [10] "")
        = some (Err.status StatusReason.AlreadyExists "secrets \"tls\" already exists") ∧
      Reconcile conflictEnv siteRequest =
        { result := { Requeue := true },
          err := some (Err.withMessage
            (Err.status StatusReason.AlreadyExists "secrets \"tls\" already exists")
            "error restoring secret default/tls"),
          calls := [Call.GetCertificate { Namespace := "default", Name := "site" },
            Call.GetSecret { Namespace := "default", Name := "tls" },
            Call.Download "default:tls.json",
            Call.Create (tlsSecret [1] [10] "")],
          logged := [] } := by
  refine ⟨by decide, by decide, rfl, by decide, by decide, by decide⟩

/-- C5, amended: when `Reconcile` reaches the restore step (the backup is judged valid)
and `Create` fails, with an already-exists conflict or with any other error, `Reconcile`
returns `Requeue=true` and a non-nil error, the `Create` error wrapped with the message
`error restoring secret <namespace>/<name>`. -/
theorem Reconcile_create_failure_requeues (env : Env) (req : Request) (cert : Certificate)
    (secret : Secret) (gerr : Option Err) (buff : Bytes) (backup : Secret) (e : Err)
    (hcert : env.GetCertificate req.NamespacedName = .ok cert)
    (hget : env.GetSecret (secretFullNameOf req cert) = (secret, gerr))
    (hpass : getFailed env gerr = false)
    (hlive : (verifySecret env.lib (env.now 0) secret).1 = false)
    (hdl : env.Download (fileNameOf (secretFullNameOf req cert)) = (buff, none))
    (hun : env.Unmarshal buff = .ok backup)
    (hbackup : (verifySecret env.lib (env.now 1) backup).1 = true)
    (hcreate : env.Create { backup with ResourceVersion := "" } = some e) :
    (Reconcile env req).result.Requeue = true ∧
      (Reconcile env req).err
        = some (Err.withMessage e
            ("error restoring secret " ++ (secretFullNameOf req cert).toString)) := by
  have h := (reconcileFrom_download_ok env (secretFullNameOf req cert)
    (fileNameOf (secretFullNameOf req cert)) secret
    [Call.GetCertificate req.NamespacedName, Call.GetSecret (secretFullNameOf req cert)]
    (verifySecret env.lib (env.now 0) secret) buff backup hlive hdl hun).1 hbackup
  rw [← Reconcile_eq_reconcileFrom env req cert secret gerr hcert hget hpass] at h
  rw [h.2.1, h.2.2, hcreate]
  exact ⟨rfl, rfl⟩

theorem Reconcile_create_failure_requeues_witness :
    (Reconcile conflictEnv siteRequest).result.Requeue = true ∧
      (Reconcile conflictEnv siteRequest).err
        = some (Err.withMessage secretAlreadyExists "error restoring secret default/tls") :=
  Reconcile_create_failure_requeues conflictEnv siteRequest { SecretName := "tls" }
    (tlsSecret [1] [11] "41") none [1, 10] (tlsSecret [1] [10] "40") secretAlreadyExists
    rfl rfl rfl (by decide) rfl rfl (by decide) rfl

/-- A missing key reported by the SDK comes out of `S3Manager.Download` as an error that
`errors.Is` matches with `ErrNotFound`. -/
theorem S3Manager_Download_no_such_key (sdk : String → String → Bytes × Option Err)
    (bucket name msg : String) (w : Bytes)
    (h : sdk bucket name = (w, some (Err.aws ErrCodeNoSuchKey msg))) :
    ∃ e, (S3Manager.Download sdk bucket name).2 = some e ∧ errorsIs e Err.ErrNotFound = true := by
  refine ⟨Err.StorageError (Err.aws ErrCodeNoSuchKey msg) Err.ErrNotFound, ?_, ?_⟩
  · simp [S3Manager.Download, h]
  · simp [errorsIs]

/-- C6: in every invocation of `Reconcile` in which `Storage.Download` is called and
returns an error, no `Create` call is made; if the error is or wraps `ErrNotFound` the
result is `Requeue=false` with a nil error, and for every other error it is
`Requeue=true` with a non-nil error. -/
theorem Reconcile_download_error (env : Env) (req : Request) (name : String) (buff : Bytes)
    (e : Err)
    (hcall : Call.Download name ∈ (Reconcile env req).calls)
    (hdl : env.Download name = (buff, some e)) :
    (∀ c ∈ (Reconcile env req).calls, c.isCreate = false) ∧
      (errorsIs e Err.ErrNotFound = true →
        (Reconcile env req).result.Requeue = false ∧ (Reconcile env req).err = none) ∧
      (errorsIs e Err.ErrNotFound = false →
        (Reconcile env req).result.Requeue = true ∧ (Reconcile env req).err ≠ none) := by
  rcases Reconcile_calls env req with hnone | ⟨cert, gerr, hcert, _, _, heq⟩
  · have := (hnone _ hcall).2.1
    simp [Call.isDownload] at this
  · rw [heq] at hcall ⊢
    rcases reconcileFrom_calls env (secretFullNameOf req cert)
        (fileNameOf (secretFullNameOf req cert)) (env.GetSecret (secretFullNameOf req cert)).1
        [Call.GetCertificate req.NamespacedName, Call.GetSecret (secretFullNameOf req cert)]
        (verifySecret env.lib (env.now 0) (env.GetSecret (secretFullNameOf req cert)).1)
      with ⟨_, hc | ⟨b, hc⟩⟩ | ⟨hv, hc | ⟨obj, hok, hc⟩⟩
    · rw [hc] at hcall
      simp at hcall
    · rw [hc] at hcall
      simp at hcall
    · have hname : name = fileNameOf (secretFullNameOf req cert) := by
        rw [hc] at hcall
        simpa using hcall
      rw [hname] at hdl
      refine ⟨?_, ?_, ?_⟩
      · rw [hc]
        simp [Call.isCreate]
      · intro hnf
        unfold reconcileFrom
        simp [hv, hdl, hnf]
      · intro hnf
        unfold reconcileFrom
        simp [hv, hdl, hnf, Wrap]
    · have hname : name = fileNameOf (secretFullNameOf req cert) := by
        rw [hc] at hcall
        simpa using hcall
      rw [hname] at hdl
      rw [hdl] at hok
      cases hok

theorem Reconcile_download_error_witness :
    Call.Download "default:tls.json" ∈ (Reconcile noBackupEnv siteRequest).calls ∧
      noBackupEnv.Download "default:tls.json"
        = ([], some (Err.StorageError
            (Err.aws ErrCodeNoSuchKey "The specified key does not exist.") Err.ErrNotFound)) ∧
      (∀ c ∈ (Reconcile noBackupEnv siteRequest).calls, c.isCreate = false) ∧
      (Reconcile noBackupEnv siteRequest).result.Requeue = false ∧
      (Reconcile noBackupEnv siteRequest).err = none :=
  ⟨by decide, rfl,
    (Reconcile_download_error noBackupEnv siteRequest "default:tls.json" []
      (Err.StorageError (Err.aws ErrCodeNoSuchKey "The specified key does not exist.")
        Err.ErrNotFound) (by decide) rfl).1,
    (Reconcile_download_error noBackupEnv siteRequest "default:tls.json" []
      (Err.StorageError (Err.aws ErrCodeNoSuchKey "The specified key does not exist.")
        Err.ErrNotFound) (by decide) rfl).2.1 (by decide)⟩

/-- C10: when `verifySecret` on the live secret returns an error `e`, `Reconcile` does not
stop there: the error is only logged, no upload is made, `Storage.Download` is called with
the backup object name, and the calls made, the result and the returned error are those
of the same invocation continued from a `verifySecret` return of `(false, nil)`. -/
theorem Reconcile_live_verify_error (env : Env) (req : Request) (cert : Certificate)
    (secret : Secret) (gerr : Option Err) (v : Bool) (e : Err)
    (hcert : env.GetCertificate req.NamespacedName = .ok cert)
    (hget : env.GetSecret (secretFullNameOf req cert) = (secret, gerr))
    (hpass : getFailed env gerr = false)
    (hv : verifySecret env.lib (env.now 0) secret = (v, some e)) :
    (Reconcile env req).logged = [e] ∧
      Call.Download (req.NamespacedName.Namespace ++ ":" ++ cert.SecretName ++ ".json")
        ∈ (Reconcile env req).calls ∧
      (∀ c ∈ (Reconcile env req).calls, c.isUpload = false) ∧
      (Reconcile env req).calls
        = (reconcileFrom env (secretFullNameOf req cert)
            (fileNameOf (secretFullNameOf req cert)) secret
            [Call.GetCertificate req.NamespacedName,
              Call.GetSecret (secretFullNameOf req cert)] (false, none)).calls ∧
      (Reconcile env req).result
        = (reconcileFrom env (secretFullNameOf req cert)
            (fileNameOf (secretFullNameOf req cert)) secret
            [Call.GetCertificate req.NamespacedName,
              Call.GetSecret (secretFullNameOf req cert)] (false, none)).result ∧
      (Reconcile env req).err
        = (reconcileFrom env (secretFullNameOf req cert)
            (fileNameOf (secretFullNameOf req cert)) secret
            [Call.GetCertificate req.NamespacedName,
              Call.GetSecret (secretFullNameOf req cert)] (false, none)).err := by
  have hfalse : v = false := by
    have h := verifySecret_fst_of_err env.lib (env.now 0) secret e (by rw [hv])
    rw [hv] at h
    exact h
  subst hfalse
  rw [Reconcile_eq_reconcileFrom env req cert secret gerr hcert hget hpass, hv]
  have hind := reconcileFrom_invalid env (secretFullNameOf req cert)
    (fileNameOf (secretFullNameOf req cert)) secret
    [Call.GetCertificate req.NamespacedName, Call.GetSecret (secretFullNameOf req cert)]
    (some e)
  have hfile : req.NamespacedName.Namespace ++ ":" ++ cert.SecretName ++ ".json"
      = fileNameOf (secretFullNameOf req cert) := rfl
  rw [hfile]
  refine ⟨?_, ?_, ?_, hind.2.2, hind.1, hind.2.1⟩
  · unfold reconcileFrom
    simp only [Bool.false_eq_true, if_false]
    (repeat' split) <;> simp_all
  · rcases reconcileFrom_calls env (secretFullNameOf req cert)
        (fileNameOf (secretFullNameOf req cert)) secret
        [Call.GetCertificate req.NamespacedName, Call.GetSecret (secretFullNameOf req cert)]
        (false, some e)
      with ⟨hv2, _⟩ | ⟨_, hc | ⟨obj, _, hc⟩⟩
    · cases hv2
    · rw [hc]; simp
    · rw [hc]; simp
  · rcases reconcileFrom_calls env (secretFullNameOf req cert)
        (fileNameOf (secretFullNameOf req cert)) secret
        [Call.GetCertificate req.NamespacedName, Call.GetSecret (secretFullNameOf req cert)]
        (false, some e)
      with ⟨hv2, _⟩ | ⟨_, hc | ⟨obj, _, hc⟩⟩
    · cases hv2
    · rw [hc]; simp [Call.isUpload]
    · rw [hc]; simp [Call.isUpload]

theorem Reconcile_live_verify_error_witness :
    verifySecret ecdsaLiveEnv.lib (ecdsaLiveEnv.now 0) (tlsSecret [2] [10] "41")
        = (false, some Err.ErrPrivateKeyNotRSA) ∧
      (Reconcile ecdsaLiveEnv siteRequest).logged = [Err.ErrPrivateKeyNotRSA] ∧
      Call.Download ("default" ++ ":" ++ "tls" ++ ".json")
        ∈ (Reconcile ecdsaLiveEnv siteRequest).calls ∧
      (∀ c ∈ (Reconcile ecdsaLiveEnv siteRequest).calls, c.isUpload = false) ∧
      (Reconcile ecdsaLiveEnv siteRequest).calls
        = (reconcileFrom ecdsaLiveEnv (secretFullNameOf siteRequest { SecretName := "tls" })
            (fileNameOf (secretFullNameOf siteRequest { SecretName := "tls" }))
            (tlsSecret [2] [10] "41")
            [Call.GetCertificate siteRequest.NamespacedName,
              Call.GetSecret (secretFullNameOf siteRequest { SecretName := "tls" })]
            (false, none)).calls ∧
      (Reconcile ecdsaLiveEnv siteRequest).result
        = (reconcileFrom ecdsaLiveEnv (secretFullNameOf siteRequest { SecretName := "tls" })
            (fileNameOf (secretFullNameOf siteRequest { SecretName := "tls" }))
            (tlsSecret [2] [10] "41")
            [Call.GetCertificate siteRequest.NamespacedName,
              Call.GetSecret (secretFullNameOf siteRequest { SecretName := "tls" })]
            (false, none)).result ∧
      (Reconcile ecdsaLiveEnv siteRequest).err
        = (reconcileFrom ecdsaLiveEnv (secretFullNameOf siteRequest { SecretName := "tls" })
            (fileNameOf (secretFullNameOf siteRequest { SecretName := "tls" }))
            (tlsSecret [2] [10] "41")
            [Call.GetCertificate siteRequest.NamespacedName,
              Call.GetSecret (secretFullNameOf siteRequest { SecretName := "tls" })]
            (false, none)).err :=
  ⟨by decide,
    Reconcile_live_verify_error ecdsaLiveEnv siteRequest { SecretName := "tls" }
      (tlsSecret [2] [10] "41") none false Err.ErrPrivateKeyNotRSA rfl rfl rfl (by decide)⟩

end CertBackup
